import Mathlib

/-!
# Suite selection predicate of `beast/unit_test/match.h`

A shallow embedding of the class `beast::unit_test::selector` and of the
factory functions `match_auto`, `match_all`, `match_suite`, `match_library`.

The C++ predicate mutates its own members; here one call of `operator()`
takes the selector before the call and returns the boolean together with
the selector after the call.
-/

namespace beast.unit_test

/-- The enumeration `selector::mode_t`, constructors in the order of the source. -/
inductive mode_t where
  | all
  | automatch
  | suite
  | library
  | module
  | none
  deriving DecidableEq, Repr

/-- Modelled from the spec: the class `suite_info` of `beast/unit_test/suite_info.h`,
which `match.h` only includes. The selector reads it through the five
accessors `name()`, `module()`, `library()`, `manual()` and `full_name()`;
each accessor is a field here, so nothing is assumed about how the full
name is assembled from the other fields. -/
structure suite_info where
  name : String
  module : String
  library : String
  manual : Bool
  full_name : String
  deriving DecidableEq, Repr

/-- The data members `mode_`, `pat_`, `library_` of `selector`. -/
structure selector where
  mode_ : mode_t
  pat_ : String
  library_ : String
  deriving DecidableEq, Repr

/-- The constructor `selector::selector (mode, pattern)`: `library_` is
default-constructed (empty), and `automatch` with an empty pattern becomes `all`. -/
def selector.ctor (mode : mode_t) (pattern : String) : selector :=
  let s : selector := { mode_ := mode, pat_ := pattern, library_ := "" }
  if s.mode_ = mode_t.automatch ∧ pattern.isEmpty then
    { s with mode_ := mode_t.all }
  else
    s

/-- The call operator `selector::operator() (suite_info const& s)`: the returned
pair is the boolean result and the selector after the call. -/
def selector.call (self : selector) (s : suite_info) : Bool × selector :=
  match self.mode_ with
  | mode_t.automatch =>
    -- suite or full name
    if s.name = self.pat_ ∨ s.full_name = self.pat_ then
      (true, { self with mode_ := mode_t.none })
    -- check module
    else if self.pat_ = s.module then
      (!s.manual, { self with mode_ := mode_t.module, library_ := s.library })
    -- check library
    else if self.pat_ = s.library then
      (!s.manual, { self with mode_ := mode_t.library })
    else
      (false, self)
  | mode_t.suite => (decide (self.pat_ = s.name), self)
  | mode_t.module => (decide (self.pat_ = s.module) && !s.manual, self)
  | mode_t.library => (decide (self.pat_ = s.library) && !s.manual, self)
  | mode_t.none => (false, self)
  | mode_t.all => (!s.manual, self)

/-- The factory `match_auto (name)`. -/
def match_auto (name : String) : selector :=
  selector.ctor mode_t.automatch name

/-- The factory `match_all ()`; the pattern is the constructor default `""`. -/
def match_all : selector :=
  selector.ctor mode_t.all ""

/-- The factory `match_suite (name)`. -/
def match_suite (name : String) : selector :=
  selector.ctor mode_t.suite name

/-- The factory `match_library (name)`. -/
def match_library (name : String) : selector :=
  selector.ctor mode_t.library name

/-- One record per call when the descriptors of a catalog are passed to the
selector in order: the boolean the call returned and the selector after it. -/
def selector.trace (self : selector) : List suite_info → List (Bool × selector)
  | [] => []
  | d :: ds => self.call d :: (self.call d).2.trace ds

/-- The selector after the whole catalog has been passed to it in order. -/
def selector.after (self : selector) : List suite_info → selector
  | [] => self
  | d :: ds => (self.call d).2.after ds

/-- The booleans returned by the successive calls. -/
def selector.results (self : selector) (ds : List suite_info) : List Bool :=
  (self.trace ds).map Prod.fst

/-- The mode before the first call followed by the mode after each call. -/
def selector.modes (self : selector) (ds : List suite_info) : List mode_t :=
  self.mode_ :: (self.trace ds).map (fun r => r.2.mode_)

/-- The descriptors a runner collects: those for which the call returned true,
in catalog order. -/
def selector.selected (self : selector) : List suite_info → List suite_info
  | [] => []
  | d :: ds =>
    if (self.call d).1 = true then d :: (self.call d).2.selected ds
    else (self.call d).2.selected ds

/-- The number of places where two consecutive entries of a list of modes differ. -/
def mode_changes : List mode_t → Nat
  | a :: b :: rest => (if a = b then 0 else 1) + mode_changes (b :: rest)
  | _ => 0

/-- The first of the three tests of the `automatch` case of `operator()` that
succeeds for the suite `s` against the pattern `pat`, named by the mode that
branch assigns: `none` for the name or full-name test, `module` for the module
test, `library` for the library test; no value when all three tests fail. The
manual flag plays no part in which branch is taken. -/
def automatch_clause (pat : String) (s : suite_info) : Option mode_t :=
  if s.name = pat ∨ s.full_name = pat then some mode_t.none
  else if pat = s.module then some mode_t.module
  else if pat = s.library then some mode_t.library
  else Option.none

/-- The stateless reference for a scan with `match_auto p`, written after its
description rather than after the code: skip the suites none of whose name, full
name, module, library is `p`; at the first suite `d` that has one of them equal to
`p`, the result is `[d]` when the name or full name is `p`; otherwise, when the
module is `p`, it is `d` (kept only if not manual) followed by the later
non-manual suites of module `p`; otherwise it is `d` (kept only if not manual)
followed by the later non-manual suites of library `p`. -/
def reference_selected (p : String) : List suite_info → List suite_info
  | [] => []
  | d :: ds =>
    if d.name = p ∨ d.full_name = p ∨ d.module = p ∨ d.library = p then
      if d.name = p ∨ d.full_name = p then [d]
      else if d.module = p then
        (if d.manual then [] else [d]) ++
          ds.filter (fun e => decide (e.module = p) && !e.manual)
      else
        (if d.manual then [] else [d]) ++
          ds.filter (fun e => decide (e.library = p) && !e.manual)
    else reference_selected p ds

/-! ## Basic facts about the constructor and one call -/

theorem ctor_of_ne_automatch (m : mode_t) (p : String) (h : m ≠ mode_t.automatch) :
    selector.ctor m p = { mode_ := m, pat_ := p, library_ := "" } := by
  simp [selector.ctor, h]

theorem match_auto_of_ne_empty (p : String) (h : p ≠ "") :
    match_auto p = { mode_ := mode_t.automatch, pat_ := p, library_ := "" } := by
  simp [match_auto, selector.ctor, String.isEmpty_iff, h]

theorem match_auto_empty :
    match_auto "" = { mode_ := mode_t.all, pat_ := "", library_ := "" } := by
  decide

theorem ctor_pat (m : mode_t) (p : String) : (selector.ctor m p).pat_ = p := by
  simp only [selector.ctor]
  split_ifs <;> rfl

theorem ctor_library (m : mode_t) (p : String) : (selector.ctor m p).library_ = "" := by
  simp only [selector.ctor]
  split_ifs <;> rfl

theorem call_snd_of_ne_automatch (sel : selector) (d : suite_info)
    (h : sel.mode_ ≠ mode_t.automatch) : (sel.call d).2 = sel := by
  unfold selector.call
  split <;> first | rfl | contradiction

theorem call_pat (sel : selector) (d : suite_info) : (sel.call d).2.pat_ = sel.pat_ := by
  unfold selector.call
  split <;> try rfl
  split_ifs <;> rfl

theorem call_automatch (sel : selector) (d : suite_info) (h : sel.mode_ = mode_t.automatch) :
    sel.call d =
      if d.name = sel.pat_ ∨ d.full_name = sel.pat_ then
        (true, { sel with mode_ := mode_t.none })
      else if sel.pat_ = d.module then
        (!d.manual, { sel with mode_ := mode_t.module, library_ := d.library })
      else if sel.pat_ = d.library then
        (!d.manual, { sel with mode_ := mode_t.library })
      else (false, sel) := by
  unfold selector.call
  rw [h]

theorem call_suite (sel : selector) (d : suite_info) (h : sel.mode_ = mode_t.suite) :
    sel.call d = (decide (sel.pat_ = d.name), sel) := by
  unfold selector.call
  rw [h]

theorem call_module (sel : selector) (d : suite_info) (h : sel.mode_ = mode_t.module) :
    sel.call d = (decide (sel.pat_ = d.module) && !d.manual, sel) := by
  unfold selector.call
  rw [h]

theorem call_library (sel : selector) (d : suite_info) (h : sel.mode_ = mode_t.library) :
    sel.call d = (decide (sel.pat_ = d.library) && !d.manual, sel) := by
  unfold selector.call
  rw [h]

theorem call_none (sel : selector) (d : suite_info) (h : sel.mode_ = mode_t.none) :
    sel.call d = (false, sel) := by
  unfold selector.call
  rw [h]

theorem call_all (sel : selector) (d : suite_info) (h : sel.mode_ = mode_t.all) :
    sel.call d = (!d.manual, sel) := by
  unfold selector.call
  rw [h]

theorem after_of_ne_automatch (sel : selector) (ds : List suite_info)
    (h : sel.mode_ ≠ mode_t.automatch) : sel.after ds = sel := by
  induction ds with
  | nil => rfl
  | cons d ds ih =>
    simp only [selector.after]
    rw [call_snd_of_ne_automatch sel d h]
    exact ih

theorem trace_of_ne_automatch (sel : selector) (ds : List suite_info)
    (h : sel.mode_ ≠ mode_t.automatch) :
    sel.trace ds = ds.map (fun d => ((sel.call d).1, sel)) := by
  induction ds with
  | nil => rfl
  | cons d ds ih =>
    simp only [selector.trace, List.map_cons]
    rw [call_snd_of_ne_automatch sel d h, ih]
    congr 1
    exact Prod.ext rfl (call_snd_of_ne_automatch sel d h)

/-! ## One call in `automatch` mode -/

/-- C1: for a selector in `automatch` mode with pattern `p`, the call returns true
exactly when the name or full name equals `p`, or the module equals `p` and the
suite is not manual, or the library equals `p` and the suite is not manual; the
same holds with the clauses read in strict order; and a name or full-name hit
returns true and moves the mode to `none`, whatever the manual flag, the module
and the library are. -/
theorem automatch_call_result (sel : selector) (d : suite_info)
    (h : sel.mode_ = mode_t.automatch) :
    ((sel.call d).1 = true ↔
      (d.name = sel.pat_ ∨ d.full_name = sel.pat_) ∨
      (d.module = sel.pat_ ∧ d.manual = false) ∨
      (d.library = sel.pat_ ∧ d.manual = false)) ∧
    ((sel.call d).1 = true ↔
      (d.name = sel.pat_ ∨ d.full_name = sel.pat_) ∨
      (¬(d.name = sel.pat_ ∨ d.full_name = sel.pat_) ∧
        d.module = sel.pat_ ∧ d.manual = false) ∨
      (¬(d.name = sel.pat_ ∨ d.full_name = sel.pat_) ∧ d.module ≠ sel.pat_ ∧
        d.library = sel.pat_ ∧ d.manual = false)) ∧
    (d.name = sel.pat_ ∨ d.full_name = sel.pat_ →
      (sel.call d).1 = true ∧ (sel.call d).2.mode_ = mode_t.none) := by
  rw [call_automatch sel d h]
  by_cases hn : d.name = sel.pat_ ∨ d.full_name = sel.pat_
  · simp [hn]
  · rw [if_neg hn]
    by_cases hm : sel.pat_ = d.module
    · have hm2 : d.module = sel.pat_ := hm.symm
      rw [if_pos hm]
      simp [hn, hm2]
    · have hm2 : ¬ d.module = sel.pat_ := fun e => hm e.symm
      rw [if_neg hm]
      by_cases hl : sel.pat_ = d.library
      · have hl2 : d.library = sel.pat_ := hl.symm
        rw [if_pos hl]
        simp [hn, hm2, hl2]
      · have hl2 : ¬ d.library = sel.pat_ := fun e => hl e.symm
        rw [if_neg hl]
        simp [hn, hm2, hl2]

/-- C1, at a concrete input: a manual suite named `X` whose module and library are
also `X` is selected by the name clause, and the mode becomes `none`. -/
theorem automatch_call_result_witness :
    ((({ mode_ := mode_t.automatch, pat_ := "X", library_ := "" } : selector).call
        { name := "X", module := "X", library := "X", manual := true,
          full_name := "X.X.X" }).1 = true ↔
      (("X" : String) = "X" ∨ ("X.X.X" : String) = "X") ∨
      (("X" : String) = "X" ∧ true = false) ∨
      (("X" : String) = "X" ∧ true = false)) ∧
    (({ mode_ := mode_t.automatch, pat_ := "X", library_ := "" } : selector).call
        { name := "X", module := "X", library := "X", manual := true,
          full_name := "X.X.X" }).2.mode_ = mode_t.none :=
  ⟨(automatch_call_result { mode_ := mode_t.automatch, pat_ := "X", library_ := "" }
      { name := "X", module := "X", library := "X", manual := true,
        full_name := "X.X.X" } rfl).1,
   ((automatch_call_result { mode_ := mode_t.automatch, pat_ := "X", library_ := "" }
      { name := "X", module := "X", library := "X", manual := true,
        full_name := "X.X.X" } rfl).2.2 (Or.inl rfl)).2⟩

/-- C2, as stated, fails: with pattern `M`, a manual suite `A` of module `M` makes
the call return false, and yet the mode is `module` and `library_` is `L`
afterwards, so the state did change on a call that returned false. -/
theorem automatch_false_call_changes_state :
    (match_auto "M").mode_ = mode_t.automatch ∧
    ((match_auto "M").call
      { name := "A", module := "M", library := "L", manual := true,
        full_name := "L.M.A" }).1 = false ∧
    ((match_auto "M").call
      { name := "A", module := "M", library := "L", manual := true,
        full_name := "L.M.A" }).2.mode_ = mode_t.module ∧
    ((match_auto "M").call
      { name := "A", module := "M", library := "L", manual := true,
        full_name := "L.M.A" }).2.library_ = "L" ∧
    ¬ (((match_auto "M").call
        { name := "A", module := "M", library := "L", manual := true,
          full_name := "L.M.A" }).2.mode_ = mode_t.automatch ∧
      ((match_auto "M").call
        { name := "A", module := "M", library := "L", manual := true,
          full_name := "L.M.A" }).2.library_ = (match_auto "M").library_) := by
  decide

/-- C2, amended: in `automatch` mode a call that returns true leaves the mode at one
of `none`, `module`, `library`; a call that returns false leaves mode and
`library_` as they were unless the suite is manual and its module or library
equals the pattern; a manual suite whose module equals the pattern (name and
full name do not) gives false, mode `module` and `library_` set to its library;
a manual suite whose library equals the pattern (name, full name and module do
not) gives false and mode `library`. -/
theorem automatch_call_state (sel : selector) (d : suite_info)
    (h : sel.mode_ = mode_t.automatch) :
    ((sel.call d).1 = true →
      (sel.call d).2.mode_ = mode_t.none ∨ (sel.call d).2.mode_ = mode_t.module ∨
        (sel.call d).2.mode_ = mode_t.library) ∧
    ((sel.call d).1 = false →
      ¬ (d.manual = true ∧ (d.module = sel.pat_ ∨ d.library = sel.pat_)) →
      (sel.call d).2.mode_ = mode_t.automatch ∧ (sel.call d).2.library_ = sel.library_) ∧
    (d.manual = true → d.name ≠ sel.pat_ → d.full_name ≠ sel.pat_ → d.module = sel.pat_ →
      sel.call d = (false, { sel with mode_ := mode_t.module, library_ := d.library })) ∧
    (d.manual = true → d.name ≠ sel.pat_ → d.full_name ≠ sel.pat_ → d.module ≠ sel.pat_ →
      d.library = sel.pat_ →
      sel.call d = (false, { sel with mode_ := mode_t.library })) := by
  rw [call_automatch sel d h]
  by_cases hn : d.name = sel.pat_ ∨ d.full_name = sel.pat_
  · rw [if_pos hn]
    refine ⟨fun _ => Or.inl rfl, fun hf => by simp at hf, ?_, ?_⟩
    · intro _ h1 h2
      exact absurd hn (by simp [h1, h2])
    · intro _ h1 h2
      exact absurd hn (by simp [h1, h2])
  · rw [if_neg hn]
    by_cases hm : sel.pat_ = d.module
    · have hm2 : d.module = sel.pat_ := hm.symm
      rw [if_pos hm]
      refine ⟨fun _ => Or.inr (Or.inl rfl), ?_, ?_, ?_⟩
      · intro hf hnot
        exact absurd ⟨by simpa using hf, Or.inl hm2⟩ hnot
      · intro hman _ _ _
        simp [hman]
      · intro _ _ _ h3
        exact absurd hm2 h3
    · have hm2 : ¬ d.module = sel.pat_ := fun e => hm e.symm
      rw [if_neg hm]
      by_cases hl : sel.pat_ = d.library
      · have hl2 : d.library = sel.pat_ := hl.symm
        rw [if_pos hl]
        refine ⟨fun _ => Or.inr (Or.inr rfl), ?_, ?_, ?_⟩
        · intro hf hnot
          exact absurd ⟨by simpa using hf, Or.inr hl2⟩ hnot
        · intro _ _ _ h3
          exact absurd h3 hm2
        · intro hman _ _ _ _
          simp [hman]
      · have hl2 : ¬ d.library = sel.pat_ := fun e => hl e.symm
        rw [if_neg hl]
        refine ⟨fun hf => by simp at hf, fun _ _ => ⟨h, rfl⟩, ?_, ?_⟩
        · intro _ _ _ h3
          exact absurd h3 hm2
        · intro _ _ _ _ h4
          exact absurd h4 hl2

/-- C2, amended, at concrete inputs: a non-manual suite of another module leaves the
state alone, and a manual suite of module `M` moves the mode to `module`. -/
theorem automatch_call_state_witness :
    (({ mode_ := mode_t.automatch, pat_ := "M", library_ := "" } : selector).call
        { name := "A", module := "N", library := "L", manual := false,
          full_name := "L.N.A" }).2.mode_ = mode_t.automatch ∧
    ({ mode_ := mode_t.automatch, pat_ := "M", library_ := "" } : selector).call
        { name := "A", module := "M", library := "L", manual := true,
          full_name := "L.M.A" } =
      (false, { mode_ := mode_t.module, pat_ := "M", library_ := "L" }) :=
  ⟨((automatch_call_state { mode_ := mode_t.automatch, pat_ := "M", library_ := "" }
      { name := "A", module := "N", library := "L", manual := false,
        full_name := "L.N.A" } rfl).2.1 (by decide) (by decide)).1,
   (automatch_call_state { mode_ := mode_t.automatch, pat_ := "M", library_ := "" }
      { name := "A", module := "M", library := "L", manual := true,
        full_name := "L.M.A" } rfl).2.2.1 rfl (by decide) (by decide) rfl⟩

/-! ## Sequences of calls -/

theorem modes_nil (sel : selector) : sel.modes [] = [sel.mode_] := rfl

theorem modes_cons (sel : selector) (d : suite_info) (ds : List suite_info) :
    sel.modes (d :: ds) = sel.mode_ :: (sel.call d).2.modes ds := rfl

theorem results_cons (sel : selector) (d : suite_info) (ds : List suite_info) :
    sel.results (d :: ds) = (sel.call d).1 :: (sel.call d).2.results ds := rfl

theorem call_mode_step (sel : selector) (d : suite_info) :
    (sel.call d).2.mode_ = sel.mode_ ∨
    (sel.mode_ = mode_t.automatch ∧
      ((sel.call d).2.mode_ = mode_t.module ∨ (sel.call d).2.mode_ = mode_t.library ∨
        (sel.call d).2.mode_ = mode_t.none)) := by
  by_cases h : sel.mode_ = mode_t.automatch
  · rw [call_automatch sel d h]
    split_ifs
    · exact Or.inr ⟨h, Or.inr (Or.inr rfl)⟩
    · exact Or.inr ⟨h, Or.inl rfl⟩
    · exact Or.inr ⟨h, Or.inr (Or.inl rfl)⟩
    · exact Or.inl rfl
  · rw [call_snd_of_ne_automatch sel d h]
    exact Or.inl rfl

theorem modes_of_ne_automatch (sel : selector) (ds : List suite_info)
    (h : sel.mode_ ≠ mode_t.automatch) : ∀ m ∈ sel.modes ds, m = sel.mode_ := by
  induction ds with
  | nil =>
    intro m hm
    simpa [modes_nil] using hm
  | cons d ds ih =>
    intro m hm
    rw [modes_cons, call_snd_of_ne_automatch sel d h] at hm
    rcases List.mem_cons.mp hm with e | hm2
    · exact e
    · exact ih m hm2

theorem mode_changes_of_ne_automatch (sel : selector) (ds : List suite_info)
    (h : sel.mode_ ≠ mode_t.automatch) : mode_changes (sel.modes ds) = 0 := by
  induction ds with
  | nil => rfl
  | cons d ds ih =>
    rw [modes_cons, call_snd_of_ne_automatch sel d h]
    cases ds with
    | nil => simp [modes_nil, mode_changes]
    | cons e es =>
      rw [modes_cons] at ih ⊢
      simp only [mode_changes, if_true, Nat.zero_add]
      exact ih

theorem mode_changes_cons (sel : selector) (d : suite_info) (ds : List suite_info) :
    mode_changes (sel.modes (d :: ds)) =
      (if sel.mode_ = (sel.call d).2.mode_ then 0 else 1) +
        mode_changes ((sel.call d).2.modes ds) := by
  rw [modes_cons]
  cases ds with
  | nil => simp [modes_nil, mode_changes]
  | cons e es => simp [modes_cons, mode_changes]

theorem mode_changes_le_one (sel : selector) (ds : List suite_info) :
    mode_changes (sel.modes ds) ≤ 1 := by
  induction ds generalizing sel with
  | nil => simp [modes_nil, mode_changes]
  | cons d ds ih =>
    rw [mode_changes_cons]
    rcases call_mode_step sel d with e | ⟨_, hm⟩
    · rw [if_pos e.symm, Nat.zero_add]
      exact ih _
    · have hne : (sel.call d).2.mode_ ≠ mode_t.automatch := by
        rcases hm with e | e | e <;> rw [e] <;> decide
      rw [mode_changes_of_ne_automatch _ ds hne]
      split_ifs <;> simp

theorem modes_adjacent (sel : selector) (ds : List suite_info) (i : Nat) (a b : mode_t)
    (ha : (sel.modes ds)[i]? = some a) (hb : (sel.modes ds)[i + 1]? = some b)
    (hab : a ≠ b) :
    a = mode_t.automatch ∧ (b = mode_t.module ∨ b = mode_t.library ∨ b = mode_t.none) := by
  induction ds generalizing sel i with
  | nil => simp [modes_nil] at hb
  | cons d ds ih =>
    rw [modes_cons] at ha hb
    cases i with
    | zero =>
      have ha2 : sel.mode_ = a := by simpa using ha
      have hb2 : (sel.call d).2.mode_ = b := by
        cases ds with
        | nil => simpa [modes_nil] using hb
        | cons e es => simpa [modes_cons] using hb
      rcases call_mode_step sel d with e | ⟨h1, h2⟩
      · exact absurd (ha2.symm.trans (e.symm.trans hb2)) hab
      · rw [hb2] at h2
        exact ⟨ha2.symm.trans h1, h2⟩
    | succ j =>
      have ha2 : ((sel.call d).2.modes ds)[j]? = some a := by simpa using ha
      have hb2 : ((sel.call d).2.modes ds)[j + 1]? = some b := by simpa using hb
      exact ih _ j ha2 hb2

/-- C3: over any sequence of calls the recorded modes differ at most at one place;
wherever two consecutive modes differ the earlier one is `automatch` and the
later one is `module`, `library` or `none`; and a selector whose mode is not
`automatch` shows that same mode before and after every call. This holds for
every selector value, hence for every one the constructor builds. -/
theorem mode_changes_at_most_once (sel : selector) (ds : List suite_info) :
    mode_changes (sel.modes ds) ≤ 1 ∧
    (∀ (i : Nat) (a b : mode_t),
      (sel.modes ds)[i]? = some a → (sel.modes ds)[i + 1]? = some b → a ≠ b →
      a = mode_t.automatch ∧
        (b = mode_t.module ∨ b = mode_t.library ∨ b = mode_t.none)) ∧
    (sel.mode_ ≠ mode_t.automatch → ∀ m ∈ sel.modes ds, m = sel.mode_) ∧
    (∀ (mode : mode_t) (pattern : String),
      mode_changes ((selector.ctor mode pattern).modes ds) ≤ 1) :=
  ⟨mode_changes_le_one sel ds, modes_adjacent sel ds, modes_of_ne_automatch sel ds,
    fun mode pattern => mode_changes_le_one (selector.ctor mode pattern) ds⟩

theorem results_of_all (sel : selector) (ds : List suite_info)
    (h : sel.mode_ = mode_t.all) : sel.results ds = ds.map (fun d => !d.manual) := by
  have hne : sel.mode_ ≠ mode_t.automatch := by rw [h]; decide
  rw [selector.results, trace_of_ne_automatch sel ds hne, List.map_map]
  apply List.map_congr_left
  intro d _
  simp [call_all sel d h]

/-- C4: the selector `match_auto ""` starts in mode `all`; over any sequence of
calls every call returns the negation of the manual flag, and the mode before
and after every call is `all`. -/
theorem match_auto_empty_is_all (ds : List suite_info) :
    (match_auto "").mode_ = mode_t.all ∧
    (match_auto "").results ds = ds.map (fun d => !d.manual) ∧
    (∀ m ∈ (match_auto "").modes ds, m = mode_t.all) := by
  have h : (match_auto "").mode_ = mode_t.all := by decide
  refine ⟨h, results_of_all _ ds h, ?_⟩
  intro m hm
  have := modes_of_ne_automatch (match_auto "") ds (by rw [h]; decide) m hm
  rw [this, h]

/-! ## Commitment after the first hit -/

/-- C5: for a non-empty pattern `p` and a suite `d1` whose name or full name is `p`
(manual or not), the first call of `match_auto p` on `d1` returns true and sets
the mode to `none`; after any further calls, every call returns false and the
mode is still `none`. -/
theorem automatch_name_hit_commits_none (p : String) (d1 : suite_info) (hp : p ≠ "")
    (h1 : d1.name = p ∨ d1.full_name = p) :
    ((match_auto p).call d1).1 = true ∧
    ((match_auto p).call d1).2.mode_ = mode_t.none ∧
    ∀ (ds : List suite_info) (d : suite_info),
      ((((match_auto p).call d1).2.after ds).call d).1 = false ∧
      ((((match_auto p).call d1).2.after ds).call d).2.mode_ = mode_t.none := by
  have hc : (match_auto p).call d1 =
      (true, { mode_ := mode_t.none, pat_ := p, library_ := "" }) := by
    rw [match_auto_of_ne_empty p hp, call_automatch _ _ rfl, if_pos h1]
  rw [hc]
  refine ⟨rfl, rfl, ?_⟩
  intro ds d
  rw [after_of_ne_automatch _ ds (fun e => mode_t.noConfusion e), call_none _ _ rfl]
  exact ⟨rfl, rfl⟩

/-- C5, at the input of the spec: with pattern `X`, the manual suite named `X` is
selected, and the following non-manual suite of module `X` is not. -/
theorem automatch_name_hit_commits_none_witness :
    ((match_auto "X").call
      { name := "X", module := "m", library := "l", manual := true,
        full_name := "l.m.X" }).1 = true ∧
    ((match_auto "X").call
      { name := "X", module := "m", library := "l", manual := true,
        full_name := "l.m.X" }).2.mode_ = mode_t.none ∧
    ((((match_auto "X").call
      { name := "X", module := "m", library := "l", manual := true,
        full_name := "l.m.X" }).2.after []).call
      { name := "Y", module := "X", library := "l", manual := false,
        full_name := "l.X.Y" }).1 = false :=
  ⟨(automatch_name_hit_commits_none "X"
      { name := "X", module := "m", library := "l", manual := true,
        full_name := "l.m.X" } (by decide) (Or.inl rfl)).1,
   (automatch_name_hit_commits_none "X"
      { name := "X", module := "m", library := "l", manual := true,
        full_name := "l.m.X" } (by decide) (Or.inl rfl)).2.1,
   ((automatch_name_hit_commits_none "X"
      { name := "X", module := "m", library := "l", manual := true,
        full_name := "l.m.X" } (by decide) (Or.inl rfl)).2.2 []
      { name := "Y", module := "X", library := "l", manual := false,
        full_name := "l.X.Y" }).1⟩

/-- C6: for a non-empty pattern `p` and a non-manual suite `d1` of module `p` whose
name and full name are not `p`, the first call of `match_auto p` on `d1` returns
true, sets the mode to `module` and `library_` to the library of `d1`; after any
further calls, a call on `d` returns exactly `d.module = p` and not manual, with
mode and `library_` unchanged; so a manual suite of module `p` is rejected and
so is any suite whose module is not `p`. -/
theorem automatch_module_hit_commits_module (p : String) (d1 : suite_info) (hp : p ≠ "")
    (hman : d1.manual = false) (hmod : d1.module = p)
    (hname : d1.name ≠ p) (hfull : d1.full_name ≠ p) :
    ((match_auto p).call d1).1 = true ∧
    ((match_auto p).call d1).2.mode_ = mode_t.module ∧
    ((match_auto p).call d1).2.library_ = d1.library ∧
    (∀ (ds : List suite_info) (d : suite_info),
      ((((match_auto p).call d1).2.after ds).call d).1 =
        (decide (d.module = p) && !d.manual) ∧
      ((((match_auto p).call d1).2.after ds).call d).2.mode_ = mode_t.module ∧
      ((((match_auto p).call d1).2.after ds).call d).2.library_ = d1.library) ∧
    (∀ (ds : List suite_info) (d : suite_info), d.manual = true →
      ((((match_auto p).call d1).2.after ds).call d).1 = false) ∧
    (∀ (ds : List suite_info) (d : suite_info), d.module ≠ p →
      ((((match_auto p).call d1).2.after ds).call d).1 = false) := by
  have hn : ¬ (d1.name = p ∨ d1.full_name = p) := by
    rintro (e | e)
    · exact hname e
    · exact hfull e
  have hc : (match_auto p).call d1 =
      (true, { mode_ := mode_t.module, pat_ := p, library_ := d1.library }) := by
    rw [match_auto_of_ne_empty p hp, call_automatch _ _ rfl, if_neg hn, if_pos hmod.symm,
      hman]
    rfl
  have key : ∀ (ds : List suite_info) (d : suite_info),
      (((match_auto p).call d1).2.after ds).call d =
        (decide (d.module = p) && !d.manual,
          { mode_ := mode_t.module, pat_ := p, library_ := d1.library }) := by
    intro ds d
    rw [hc, after_of_ne_automatch _ ds (fun e => mode_t.noConfusion e), call_module _ _ rfl]
    have : decide (p = d.module) = decide (d.module = p) := by
      simp only [eq_comm]
    simp only [this]
  refine ⟨by rw [hc], by rw [hc], by rw [hc], ?_, ?_, ?_⟩
  · intro ds d
    rw [key ds d]
    exact ⟨rfl, rfl, rfl⟩
  · intro ds d hd
    rw [key ds d]
    simp [hd]
  · intro ds d hd
    rw [key ds d]
    simp [hd]

/-- C6, at the input of the spec: with pattern `M`, the non-manual suite `A` of module
`M` and library `L` is selected and fixes mode `module` with `library_ = L`; a later
manual suite of module `M` and a later suite of library `M` are both rejected. -/
theorem automatch_module_hit_commits_module_witness :
    ((match_auto "M").call
      { name := "A", module := "M", library := "L", manual := false,
        full_name := "L.M.A" }).1 = true ∧
    ((match_auto "M").call
      { name := "A", module := "M", library := "L", manual := false,
        full_name := "L.M.A" }).2.mode_ = mode_t.module ∧
    ((match_auto "M").call
      { name := "A", module := "M", library := "L", manual := false,
        full_name := "L.M.A" }).2.library_ = "L" ∧
    ((((match_auto "M").call
      { name := "A", module := "M", library := "L", manual := false,
        full_name := "L.M.A" }).2.after []).call
      { name := "B", module := "M", library := "L", manual := true,
        full_name := "L.M.B" }).1 = false ∧
    ((((match_auto "M").call
      { name := "A", module := "M", library := "L", manual := false,
        full_name := "L.M.A" }).2.after
        [{ name := "B", module := "M", library := "L", manual := true,
           full_name := "L.M.B" }]).call
      { name := "C", module := "N", library := "M", manual := false,
        full_name := "M.N.C" }).1 = false :=
  ⟨(automatch_module_hit_commits_module "M"
      { name := "A", module := "M", library := "L", manual := false,
        full_name := "L.M.A" } (by decide) rfl rfl (by decide) (by decide)).1,
   (automatch_module_hit_commits_module "M"
      { name := "A", module := "M", library := "L", manual := false,
        full_name := "L.M.A" } (by decide) rfl rfl (by decide) (by decide)).2.1,
   (automatch_module_hit_commits_module "M"
      { name := "A", module := "M", library := "L", manual := false,
        full_name := "L.M.A" } (by decide) rfl rfl (by decide) (by decide)).2.2.1,
   (automatch_module_hit_commits_module "M"
      { name := "A", module := "M", library := "L", manual := false,
        full_name := "L.M.A" } (by decide) rfl rfl (by decide) (by decide)).2.2.2.2.1 []
      { name := "B", module := "M", library := "L", manual := true,
        full_name := "L.M.B" } rfl,
   (automatch_module_hit_commits_module "M"
      { name := "A", module := "M", library := "L", manual := false,
        full_name := "L.M.A" } (by decide) rfl rfl (by decide) (by decide)).2.2.2.2.2
      [{ name := "B", module := "M", library := "L", manual := true,
         full_name := "L.M.B" }]
      { name := "C", module := "N", library := "M", manual := false,
        full_name := "M.N.C" } (by decide)⟩

/-- C7, evaluated at a failing input: with pattern `M`, the suite `A` of module `M` and
library `L1` is the first match, a module match, and records `library_ = L1`; the
later suite `B` of module `M` and library `L2` is selected all the same, although
its library is not the recorded one. -/
theorem module_commit_ignores_library :
    ((match_auto "M").call
      { name := "A", module := "M", library := "L1", manual := false,
        full_name := "L1.M.A" }).1 = true ∧
    ((match_auto "M").call
      { name := "A", module := "M", library := "L1", manual := false,
        full_name := "L1.M.A" }).2.mode_ = mode_t.module ∧
    ((match_auto "M").call
      { name := "A", module := "M", library := "L1", manual := false,
        full_name := "L1.M.A" }).2.library_ = "L1" ∧
    (match_auto "M").selected
      [{ name := "A", module := "M", library := "L1", manual := false,
         full_name := "L1.M.A" },
       { name := "B", module := "M", library := "L2", manual := false,
         full_name := "L2.M.B" }] =
      [{ name := "A", module := "M", library := "L1", manual := false,
         full_name := "L1.M.A" },
       { name := "B", module := "M", library := "L2", manual := false,
         full_name := "L2.M.B" }] ∧
    ({ name := "B", module := "M", library := "L2", manual := false,
       full_name := "L2.M.B" } : suite_info).library ≠
      ((match_auto "M").call
        { name := "A", module := "M", library := "L1", manual := false,
          full_name := "L1.M.A" }).2.library_ := by
  decide

/-- C8: scanning the catalog `A` (module `M1`), `B` (module `M1`), `C` (module `M2`,
manual), all of library `L1`, with `match_auto "M1"` returns true, true, false,
selects exactly `A` and `B`, and the mode is `module` after the first call and
after the whole scan; the full names are arbitrary, that of `A` not being `M1`. -/
theorem scenario_selects_A_and_B (fa fb fc : String) (hfa : fa ≠ "M1") :
    (match_auto "M1").results
      [{ name := "A", module := "M1", library := "L1", manual := false, full_name := fa },
       { name := "B", module := "M1", library := "L1", manual := false, full_name := fb },
       { name := "C", module := "M2", library := "L1", manual := true, full_name := fc }] =
      [true, true, false] ∧
    (match_auto "M1").selected
      [{ name := "A", module := "M1", library := "L1", manual := false, full_name := fa },
       { name := "B", module := "M1", library := "L1", manual := false, full_name := fb },
       { name := "C", module := "M2", library := "L1", manual := true, full_name := fc }] =
      [{ name := "A", module := "M1", library := "L1", manual := false, full_name := fa },
       { name := "B", module := "M1", library := "L1", manual := false, full_name := fb }] ∧
    ((match_auto "M1").call
      { name := "A", module := "M1", library := "L1", manual := false,
        full_name := fa }).2.mode_ = mode_t.module ∧
    ((match_auto "M1").after
      [{ name := "A", module := "M1", library := "L1", manual := false, full_name := fa },
       { name := "B", module := "M1", library := "L1", manual := false, full_name := fb },
       { name := "C", module := "M2", library := "L1", manual := true, full_name := fc }]).mode_ =
      mode_t.module := by
  have h0 : match_auto "M1" = { mode_ := mode_t.automatch, pat_ := "M1", library_ := "" } := by
    decide
  have hA : ({ mode_ := mode_t.automatch, pat_ := "M1", library_ := "" } : selector).call
      { name := "A", module := "M1", library := "L1", manual := false, full_name := fa } =
      (true, { mode_ := mode_t.module, pat_ := "M1", library_ := "L1" }) := by
    rw [call_automatch _ _ rfl]
    simp [hfa]
  have hB : ({ mode_ := mode_t.module, pat_ := "M1", library_ := "L1" } : selector).call
      { name := "B", module := "M1", library := "L1", manual := false, full_name := fb } =
      (true, { mode_ := mode_t.module, pat_ := "M1", library_ := "L1" }) := by
    rw [call_module _ _ rfl]
    simp
  have hC : ({ mode_ := mode_t.module, pat_ := "M1", library_ := "L1" } : selector).call
      { name := "C", module := "M2", library := "L1", manual := true, full_name := fc } =
      (false, { mode_ := mode_t.module, pat_ := "M1", library_ := "L1" }) := by
    rw [call_module _ _ rfl]
    simp
  rw [h0]
  refine ⟨?_, ?_, ?_, ?_⟩
  · simp [selector.results, selector.trace, hA, hB, hC]
  · simp [selector.selected, hA, hB, hC]
  · rw [hA]
  · simp [selector.after, hA, hB, hC]

/-- C8, with the library-qualified full names `L1.M1.A`, `L1.M1.B`, `L1.M2.C`. -/
theorem scenario_selects_A_and_B_witness :
    (match_auto "M1").results
      [{ name := "A", module := "M1", library := "L1", manual := false,
         full_name := "L1.M1.A" },
       { name := "B", module := "M1", library := "L1", manual := false,
         full_name := "L1.M1.B" },
       { name := "C", module := "M2", library := "L1", manual := true,
         full_name := "L1.M2.C" }] =
      [true, true, false] ∧
    (match_auto "M1").selected
      [{ name := "A", module := "M1", library := "L1", manual := false,
         full_name := "L1.M1.A" },
       { name := "B", module := "M1", library := "L1", manual := false,
         full_name := "L1.M1.B" },
       { name := "C", module := "M2", library := "L1", manual := true,
         full_name := "L1.M2.C" }] =
      [{ name := "A", module := "M1", library := "L1", manual := false,
         full_name := "L1.M1.A" },
       { name := "B", module := "M1", library := "L1", manual := false,
         full_name := "L1.M1.B" }] :=
  ⟨(scenario_selects_A_and_B "L1.M1.A" "L1.M1.B" "L1.M2.C" (by decide)).1,
   (scenario_selects_A_and_B "L1.M1.A" "L1.M1.B" "L1.M2.C" (by decide)).2.1⟩

/-! ## Selectors that never change mode -/

/-- C9: after any sequence of earlier calls, `match_all` is still in mode `all` and
its call on a suite returns the negation of the manual flag. -/
theorem match_all_selects_non_manual (ds : List suite_info) (d : suite_info) :
    ((match_all.after ds).call d).1 = (!d.manual) ∧
    (match_all.after ds).mode_ = mode_t.all ∧
    match_all.results ds = ds.map (fun e => !e.manual) := by
  have h : match_all.mode_ = mode_t.all := by decide
  have ha : match_all.after ds = match_all :=
    after_of_ne_automatch _ ds (by rw [h]; decide)
  rw [ha, call_all _ _ h]
  exact ⟨rfl, h, results_of_all _ ds h⟩

/-- C10: after any sequence of earlier calls, the call of `match_suite X` on a suite
returns true exactly when the name of the suite is `X`; two suites of the same
name get the same answer whatever their other fields are; in particular a
suite named `X` is selected whether or not it is manual. -/
theorem match_suite_selects_by_name (X : String) (ds : List suite_info) (d : suite_info) :
    ((((match_suite X).after ds).call d).1 = true ↔ d.name = X) ∧
    (∀ e : suite_info, e.name = d.name →
      (((match_suite X).after ds).call e).1 = (((match_suite X).after ds).call d).1) ∧
    (∀ (m : Bool) (md lb fn : String),
      (((match_suite X).after ds).call
        { name := X, module := md, library := lb, manual := m, full_name := fn }).1 =
        true) := by
  have h0 : match_suite X = { mode_ := mode_t.suite, pat_ := X, library_ := "" } :=
    ctor_of_ne_automatch _ _ (by decide)
  have ha : (match_suite X).after ds = { mode_ := mode_t.suite, pat_ := X, library_ := "" } := by
    rw [h0]
    exact after_of_ne_automatch _ ds (fun e => mode_t.noConfusion e)
  rw [ha]
  refine ⟨?_, ?_, ?_⟩
  · rw [call_suite _ _ rfl]
    simp [eq_comm]
  · intro e he
    rw [call_suite _ _ rfl, call_suite _ _ rfl, he]
  · intro m md lb fn
    rw [call_suite _ _ rfl]
    simp

/-! ## The selected list -/

theorem selected_cons (sel : selector) (d : suite_info) (ds : List suite_info) :
    sel.selected (d :: ds) =
      if (sel.call d).1 = true then d :: (sel.call d).2.selected ds
      else (sel.call d).2.selected ds := rfl

theorem after_cons (sel : selector) (d : suite_info) (ds : List suite_info) :
    sel.after (d :: ds) = (sel.call d).2.after ds := rfl

theorem after_pat (sel : selector) (ds : List suite_info) :
    (sel.after ds).pat_ = sel.pat_ := by
  induction ds generalizing sel with
  | nil => rfl
  | cons d ds ih => rw [after_cons, ih, call_pat]

theorem selected_of_ne_automatch (sel : selector) (ds : List suite_info)
    (h : sel.mode_ ≠ mode_t.automatch) :
    sel.selected ds = ds.filter (fun d => (sel.call d).1) := by
  induction ds with
  | nil => rfl
  | cons d ds ih =>
    rw [selected_cons, call_snd_of_ne_automatch sel d h, ih, List.filter_cons]

theorem selected_none (sel : selector) (ds : List suite_info)
    (h : sel.mode_ = mode_t.none) : sel.selected ds = [] := by
  rw [selected_of_ne_automatch sel ds (by rw [h]; decide), List.filter_eq_nil_iff]
  intro d _
  simp [call_none sel d h]

theorem selected_module (sel : selector) (ds : List suite_info)
    (h : sel.mode_ = mode_t.module) :
    sel.selected ds = ds.filter (fun d => decide (d.module = sel.pat_) && !d.manual) := by
  rw [selected_of_ne_automatch sel ds (by rw [h]; decide)]
  apply List.filter_congr
  intro d _
  rw [call_module sel d h]
  simp only [eq_comm]

theorem selected_library (sel : selector) (ds : List suite_info)
    (h : sel.mode_ = mode_t.library) :
    sel.selected ds = ds.filter (fun d => decide (d.library = sel.pat_) && !d.manual) := by
  rw [selected_of_ne_automatch sel ds (by rw [h]; decide)]
  apply List.filter_congr
  intro d _
  rw [call_library sel d h]
  simp only [eq_comm]

theorem results_of_ne_automatch (sel : selector) (ds : List suite_info)
    (h : sel.mode_ ≠ mode_t.automatch) :
    sel.results ds = ds.map (fun d => (sel.call d).1) := by
  rw [selector.results, trace_of_ne_automatch sel ds h, List.map_map]
  rfl

theorem call_true_of_manual (sel : selector) (d : suite_info)
    (hc : (sel.call d).1 = true) (hm : d.manual = true) :
    d.name = sel.pat_ ∨ d.full_name = sel.pat_ := by
  cases hmode : sel.mode_ with
  | automatch =>
    rw [call_automatch sel d hmode] at hc
    by_cases h1 : d.name = sel.pat_ ∨ d.full_name = sel.pat_
    · exact h1
    · rw [if_neg h1] at hc
      by_cases h2 : sel.pat_ = d.module
      · rw [if_pos h2] at hc
        simp [hm] at hc
      · rw [if_neg h2] at hc
        by_cases h3 : sel.pat_ = d.library
        · rw [if_pos h3] at hc
          simp [hm] at hc
        · rw [if_neg h3] at hc
          simp at hc
  | suite =>
    rw [call_suite sel d hmode] at hc
    exact Or.inl (of_decide_eq_true hc).symm
  | module =>
    rw [call_module sel d hmode] at hc
    simp [hm] at hc
  | library =>
    rw [call_library sel d hmode] at hc
    simp [hm] at hc
  | none =>
    rw [call_none sel d hmode] at hc
    simp at hc
  | all =>
    rw [call_all sel d hmode] at hc
    simp [hm] at hc

theorem manual_selected_by_name (sel : selector) (ds : List suite_info) (d : suite_info)
    (hd : d ∈ sel.selected ds) (hm : d.manual = true) :
    d.name = sel.pat_ ∨ d.full_name = sel.pat_ := by
  induction ds generalizing sel with
  | nil => simp [selector.selected] at hd
  | cons e es ih =>
    rw [selected_cons] at hd
    have hrest : d ∈ (sel.call e).2.selected es →
        d.name = sel.pat_ ∨ d.full_name = sel.pat_ := by
      intro h
      have := ih (sel.call e).2 h
      rwa [call_pat] at this
    split_ifs at hd with hc
    · rcases List.mem_cons.mp hd with e1 | h
      · rw [e1]
        rw [e1] at hm
        exact call_true_of_manual sel e hc hm
      · exact hrest h
    · exact hrest hd

/-- C11: for a non-empty pattern `p` and a non-manual suite `d1` of library `p` whose
name, full name and module are not `p`, the first call of `match_auto p` on `d1`
returns true and sets the mode to `library`; the selector after that call is the
selector `match_library p`, so on every later sequence of suites both return the
same booleans and select the same suites, each boolean being `d.library = p` and
not manual. -/
theorem automatch_library_hit_is_match_library (p : String) (d1 : suite_info)
    (hp : p ≠ "") (hman : d1.manual = false) (hlib : d1.library = p)
    (hname : d1.name ≠ p) (hfull : d1.full_name ≠ p) (hmod : d1.module ≠ p) :
    ((match_auto p).call d1).1 = true ∧
    ((match_auto p).call d1).2.mode_ = mode_t.library ∧
    ((match_auto p).call d1).2 = match_library p ∧
    ∀ ds : List suite_info,
      ((match_auto p).call d1).2.results ds = (match_library p).results ds ∧
      ((match_auto p).call d1).2.selected ds = (match_library p).selected ds ∧
      (match_library p).results ds =
        ds.map (fun d => decide (d.library = p) && !d.manual) ∧
      (match_library p).selected ds =
        ds.filter (fun d => decide (d.library = p) && !d.manual) := by
  have hn : ¬ (d1.name = p ∨ d1.full_name = p) := by
    rintro (e | e)
    · exact hname e
    · exact hfull e
  have hl : match_library p = { mode_ := mode_t.library, pat_ := p, library_ := "" } :=
    ctor_of_ne_automatch _ _ (by decide)
  have hc : (match_auto p).call d1 = (true, match_library p) := by
    rw [match_auto_of_ne_empty p hp, call_automatch _ _ rfl, if_neg hn,
      if_neg (fun e => hmod e.symm), if_pos hlib.symm, hman, hl]
    rfl
  rw [hc]
  refine ⟨rfl, by rw [hl], rfl, ?_⟩
  intro ds
  have hmode : (match_library p).mode_ = mode_t.library := by rw [hl]
  have hpat : (match_library p).pat_ = p := by rw [hl]
  refine ⟨rfl, rfl, ?_, ?_⟩
  · rw [results_of_ne_automatch _ ds (by rw [hmode]; decide)]
    apply List.map_congr_left
    intro d _
    rw [call_library _ d hmode, hpat]
    simp only [eq_comm]
  · rw [selected_library _ ds hmode, hpat]

/-- C11, at a concrete input: with pattern `L`, the non-manual suite `A` of library `L`
fixes mode `library`, and the later suites get the answers of `match_library "L"`. -/
theorem automatch_library_hit_is_match_library_witness :
    ((match_auto "L").call
      { name := "A", module := "M", library := "L", manual := false,
        full_name := "L.M.A" }).1 = true ∧
    ((match_auto "L").call
      { name := "A", module := "M", library := "L", manual := false,
        full_name := "L.M.A" }).2 = match_library "L" ∧
    ((match_auto "L").call
      { name := "A", module := "M", library := "L", manual := false,
        full_name := "L.M.A" }).2.results
      [{ name := "B", module := "N", library := "L", manual := false,
         full_name := "L.N.B" },
       { name := "C", module := "N", library := "L", manual := true,
         full_name := "L.N.C" }] =
      (match_library "L").results
      [{ name := "B", module := "N", library := "L", manual := false,
         full_name := "L.N.B" },
       { name := "C", module := "N", library := "L", manual := true,
         full_name := "L.N.C" }] :=
  ⟨(automatch_library_hit_is_match_library "L"
      { name := "A", module := "M", library := "L", manual := false,
        full_name := "L.M.A" } (by decide) rfl rfl (by decide) (by decide) (by decide)).1,
   (automatch_library_hit_is_match_library "L"
      { name := "A", module := "M", library := "L", manual := false,
        full_name := "L.M.A" } (by decide) rfl rfl (by decide) (by decide)
        (by decide)).2.2.1,
   ((automatch_library_hit_is_match_library "L"
      { name := "A", module := "M", library := "L", manual := false,
        full_name := "L.M.A" } (by decide) rfl rfl (by decide) (by decide)
        (by decide)).2.2.2 _).1⟩

/-- C12: a manual suite that a scan selects has its name or its full name equal to
the pattern, and the selector started in mode `automatch` or `suite`; and for
every single call, a manual suite gets true only in mode `automatch` or `suite`
and only with its name or full name equal to the pattern, so never in mode
`module`, `library` or `all`. -/
theorem manual_selected_only_by_exact_name (sel : selector) (ds : List suite_info)
    (d : suite_info) (hd : d ∈ sel.selected ds) (hm : d.manual = true) :
    (d.name = sel.pat_ ∨ d.full_name = sel.pat_) ∧
    (sel.mode_ = mode_t.automatch ∨ sel.mode_ = mode_t.suite) ∧
    (∀ (s : selector) (e : suite_info), e.manual = true → (s.call e).1 = true →
      (e.name = s.pat_ ∨ e.full_name = s.pat_) ∧
      (s.mode_ = mode_t.automatch ∨ s.mode_ = mode_t.suite)) := by
  have one : ∀ (s : selector) (e : suite_info), e.manual = true → (s.call e).1 = true →
      (s.mode_ = mode_t.automatch ∨ s.mode_ = mode_t.suite) := by
    intro s e he hc
    cases hmode : s.mode_ with
    | automatch => exact Or.inl rfl
    | suite => exact Or.inr rfl
    | module =>
      rw [call_module s e hmode] at hc
      simp [he] at hc
    | library =>
      rw [call_library s e hmode] at hc
      simp [he] at hc
    | none =>
      rw [call_none s e hmode] at hc
      simp at hc
    | all =>
      rw [call_all s e hmode] at hc
      simp [he] at hc
  refine ⟨manual_selected_by_name sel ds d hd hm, ?_,
    fun s e he hc => ⟨call_true_of_manual s e hc he, one s e he hc⟩⟩
  by_cases ha : sel.mode_ = mode_t.automatch
  · exact Or.inl ha
  · rw [selected_of_ne_automatch sel ds ha] at hd
    exact one sel d hm (List.mem_filter.mp hd).2

/-- C12, at a concrete input: the manual suite named `X` is selected by
`match_auto "X"`, and its name is the pattern. -/
theorem manual_selected_only_by_exact_name_witness :
    ((suite_info.mk "X" "m" "l" true "l.m.X").name = (match_auto "X").pat_ ∨
      (suite_info.mk "X" "m" "l" true "l.m.X").full_name = (match_auto "X").pat_) ∧
    ((match_auto "X").mode_ = mode_t.automatch ∨ (match_auto "X").mode_ = mode_t.suite) :=
  ⟨(manual_selected_only_by_exact_name (match_auto "X")
      [{ name := "Y", module := "m", library := "l", manual := false,
         full_name := "l.m.Y" },
       { name := "X", module := "m", library := "l", manual := true,
         full_name := "l.m.X" }]
      { name := "X", module := "m", library := "l", manual := true,
        full_name := "l.m.X" } (by decide) rfl).1,
   (manual_selected_only_by_exact_name (match_auto "X")
      [{ name := "Y", module := "m", library := "l", manual := false,
         full_name := "l.m.Y" },
       { name := "X", module := "m", library := "l", manual := true,
         full_name := "l.m.X" }]
      { name := "X", module := "m", library := "l", manual := true,
        full_name := "l.m.X" } (by decide) rfl).2.1⟩

/-- C13: for a selector in mode `suite`, `module`, `library`, `all` or `none` and two
catalogs that are permutations of each other, the two selected lists are
permutations of each other; each is the catalog filtered by the answer of the
call, and the answer of a call on a suite is the same after any earlier calls. -/
theorem fixed_mode_scan_order_independent (sel : selector) (ds ds' : List suite_info)
    (h : sel.mode_ = mode_t.suite ∨ sel.mode_ = mode_t.module ∨
      sel.mode_ = mode_t.library ∨ sel.mode_ = mode_t.all ∨ sel.mode_ = mode_t.none)
    (hp : ds.Perm ds') :
    (sel.selected ds).Perm (sel.selected ds') ∧
    sel.selected ds = ds.filter (fun d => (sel.call d).1) ∧
    sel.selected ds' = ds'.filter (fun d => (sel.call d).1) ∧
    (∀ (pre : List suite_info) (d : suite_info),
      ((sel.after pre).call d).1 = (sel.call d).1) := by
  have hne : sel.mode_ ≠ mode_t.automatch := by
    rcases h with e | e | e | e | e <;> rw [e] <;> decide
  refine ⟨?_, selected_of_ne_automatch sel ds hne, selected_of_ne_automatch sel ds' hne, ?_⟩
  · rw [selected_of_ne_automatch sel ds hne, selected_of_ne_automatch sel ds' hne]
    exact hp.filter _
  · intro pre d
    rw [after_of_ne_automatch sel pre hne]

/-- C13, at a concrete input: `match_library "L"` selects the same suites from a
catalog of two suites and from the catalog with the two swapped. -/
theorem fixed_mode_scan_order_independent_witness :
    ((match_library "L").selected
      [{ name := "A", module := "M", library := "L", manual := false,
         full_name := "L.M.A" },
       { name := "B", module := "N", library := "L", manual := false,
         full_name := "L.N.B" }]).Perm
    ((match_library "L").selected
      [{ name := "B", module := "N", library := "L", manual := false,
         full_name := "L.N.B" },
       { name := "A", module := "M", library := "L", manual := false,
         full_name := "L.M.A" }]) :=
  (fixed_mode_scan_order_independent (match_library "L") _ _
    (by decide) (List.Perm.swap _ _ _)).1

/-! ## Order of the first hit, and what a call may touch -/

theorem call_mode_of_clause (sel : selector) (d : suite_info) (m : mode_t)
    (h : sel.mode_ = mode_t.automatch) (hc : automatch_clause sel.pat_ d = some m) :
    (sel.call d).2.mode_ = m ∧ m ≠ mode_t.automatch := by
  rw [call_automatch sel d h]
  unfold automatch_clause at hc
  by_cases h1 : d.name = sel.pat_ ∨ d.full_name = sel.pat_
  · rw [if_pos h1] at hc ⊢
    cases Option.some.inj hc
    exact ⟨rfl, by decide⟩
  · rw [if_neg h1] at hc ⊢
    by_cases h2 : sel.pat_ = d.module
    · rw [if_pos h2] at hc ⊢
      cases Option.some.inj hc
      exact ⟨rfl, by decide⟩
    · rw [if_neg h2] at hc ⊢
      by_cases h3 : sel.pat_ = d.library
      · rw [if_pos h3] at hc ⊢
        cases Option.some.inj hc
        exact ⟨rfl, by decide⟩
      · rw [if_neg h3] at hc
        cases hc

theorem after_pair_of_clause (p : String) (d1 d2 : suite_info) (m : mode_t) (hp : p ≠ "")
    (hc : automatch_clause p d1 = some m) :
    ((match_auto p).after [d1, d2]).mode_ = m := by
  have h0 := match_auto_of_ne_empty p hp
  have hmode : (match_auto p).mode_ = mode_t.automatch := by rw [h0]
  have hpat : (match_auto p).pat_ = p := by rw [h0]
  have := call_mode_of_clause (match_auto p) d1 m hmode (by rw [hpat]; exact hc)
  rw [after_cons, after_of_ne_automatch _ [d2] (by rw [this.1]; exact this.2)]
  exact this.1

/-- C14: for a non-empty pattern `p` and two suites that take different branches of
the `automatch` case (`m1` and `m2` being the modes those branches assign), the
mode of `match_auto p` after the calls on `d1` then `d2` is `m1`, and after the
calls on `d2` then `d1` it is `m2`, so the two orders end in different modes; the
branch is `none` exactly for a name or full-name hit, `module` exactly for a
module hit without a name hit, `library` exactly for a library hit without a
name or module hit. -/
theorem automatch_order_sensitive (p : String) (d1 d2 : suite_info) (m1 m2 : mode_t)
    (hp : p ≠ "") (h1 : automatch_clause p d1 = some m1)
    (h2 : automatch_clause p d2 = some m2) (hne : m1 ≠ m2) :
    ((match_auto p).after [d1, d2]).mode_ = m1 ∧
    ((match_auto p).after [d2, d1]).mode_ = m2 ∧
    ((match_auto p).after [d1, d2]).mode_ ≠ ((match_auto p).after [d2, d1]).mode_ ∧
    (∀ d : suite_info,
      (automatch_clause p d = some mode_t.none ↔ (d.name = p ∨ d.full_name = p)) ∧
      (automatch_clause p d = some mode_t.module ↔
        (¬ (d.name = p ∨ d.full_name = p) ∧ d.module = p)) ∧
      (automatch_clause p d = some mode_t.library ↔
        (¬ (d.name = p ∨ d.full_name = p) ∧ d.module ≠ p ∧ d.library = p))) := by
  have e1 := after_pair_of_clause p d1 d2 m1 hp h1
  have e2 := after_pair_of_clause p d2 d1 m2 hp h2
  refine ⟨e1, e2, by rw [e1, e2]; exact hne, ?_⟩
  intro d
  unfold automatch_clause
  by_cases k1 : d.name = p ∨ d.full_name = p
  · simp [k1]
  · rw [if_neg k1]
    by_cases k2 : p = d.module
    · have k2' : d.module = p := k2.symm
      rw [if_pos k2]
      simp [k1, k2']
    · have k2' : ¬ d.module = p := fun e => k2 e.symm
      rw [if_neg k2]
      by_cases k3 : p = d.library
      · have k3' : d.library = p := k3.symm
        rw [if_pos k3]
        simp [k1, k2', k3']
      · have k3' : ¬ d.library = p := fun e => k3 e.symm
        rw [if_neg k3]
        simp [k1, k2', k3']

/-- C14, at a concrete input: with pattern `P`, a suite named `P` and a suite of module
`P` commit the selector to `none` in one order and to `module` in the other. -/
theorem automatch_order_sensitive_witness :
    ((match_auto "P").after
      [{ name := "P", module := "m", library := "l", manual := false,
         full_name := "l.m.P" },
       { name := "A", module := "P", library := "l", manual := false,
         full_name := "l.P.A" }]).mode_ = mode_t.none ∧
    ((match_auto "P").after
      [{ name := "A", module := "P", library := "l", manual := false,
         full_name := "l.P.A" },
       { name := "P", module := "m", library := "l", manual := false,
         full_name := "l.m.P" }]).mode_ = mode_t.module :=
  ⟨(automatch_order_sensitive "P"
      { name := "P", module := "m", library := "l", manual := false,
        full_name := "l.m.P" }
      { name := "A", module := "P", library := "l", manual := false,
        full_name := "l.P.A" } mode_t.none mode_t.module
      (by decide) (by decide) (by decide) (by decide)).1,
   (automatch_order_sensitive "P"
      { name := "P", module := "m", library := "l", manual := false,
        full_name := "l.m.P" }
      { name := "A", module := "P", library := "l", manual := false,
        full_name := "l.P.A" } mode_t.none mode_t.module
      (by decide) (by decide) (by decide) (by decide)).2.1⟩

/-- C15: a call on a selector in mode `suite`, `module`, `library`, `none` or `all`
returns the selector unchanged (mode, pattern and `library_`); and in every
mode the pattern after a call, and after any sequence of calls, is the pattern
before it. -/
theorem call_frame (sel : selector) (d : suite_info) :
    ((sel.mode_ = mode_t.suite ∨ sel.mode_ = mode_t.module ∨ sel.mode_ = mode_t.library ∨
        sel.mode_ = mode_t.none ∨ sel.mode_ = mode_t.all) →
      (sel.call d).2 = sel) ∧
    (sel.call d).2.pat_ = sel.pat_ ∧
    (∀ ds : List suite_info, (sel.after ds).pat_ = sel.pat_) := by
  refine ⟨?_, call_pat sel d, after_pat sel⟩
  intro h
  apply call_snd_of_ne_automatch
  rcases h with e | e | e | e | e <;> rw [e] <;> decide

theorem call_congr_library (s1 s2 : selector) (d : suite_info)
    (hm : s1.mode_ = s2.mode_) (hp : s1.pat_ = s2.pat_) :
    (s1.call d).1 = (s2.call d).1 ∧ (s1.call d).2.mode_ = (s2.call d).2.mode_ ∧
      (s1.call d).2.pat_ = (s2.call d).2.pat_ := by
  refine ⟨?_, ?_, by rw [call_pat, call_pat, hp]⟩
  · unfold selector.call
    rw [hm, hp]
    split <;> try rfl
    split_ifs <;> rfl
  · unfold selector.call
    rw [hm, hp]
    split <;> try exact hm
    split_ifs <;> first | rfl | exact hm

theorem trace_congr_library (s1 s2 : selector) (ds : List suite_info)
    (hm : s1.mode_ = s2.mode_) (hp : s1.pat_ = s2.pat_) :
    s1.results ds = s2.results ds ∧
    (s1.trace ds).map (fun r => r.2.mode_) = (s2.trace ds).map (fun r => r.2.mode_) ∧
    (s1.selected ds = s2.selected ds) := by
  induction ds generalizing s1 s2 with
  | nil => exact ⟨rfl, rfl, rfl⟩
  | cons d ds ih =>
    obtain ⟨c1, c2, c3⟩ := call_congr_library s1 s2 d hm hp
    obtain ⟨i1, i2, i3⟩ := ih (s1.call d).2 (s2.call d).2 c2 c3
    refine ⟨?_, ?_, ?_⟩
    · rw [results_cons, results_cons, c1, i1]
    · simp only [selector.trace, List.map_cons]
      rw [c2, i2]
    · rw [selected_cons, selected_cons, c1, i3]

/-- C16: two selectors with the same mode and the same pattern, whatever their
`library_` members are, return the same boolean on every call of any sequence,
show the same mode before and after every call, and select the same suites. -/
theorem library_member_never_read (s1 s2 : selector) (ds : List suite_info)
    (hm : s1.mode_ = s2.mode_) (hp : s1.pat_ = s2.pat_) :
    s1.results ds = s2.results ds ∧
    s1.modes ds = s2.modes ds ∧
    s1.selected ds = s2.selected ds := by
  obtain ⟨h1, h2, h3⟩ := trace_congr_library s1 s2 ds hm hp
  refine ⟨h1, ?_, h3⟩
  unfold selector.modes
  rw [hm, h2]

/-- C16, at a concrete input: in mode `module` with pattern `M`, the selectors with
`library_ = L1` and `library_ = L2` give the same answers on a suite of library
`L1` followed by a suite of library `L2`. -/
theorem library_member_never_read_witness :
    ({ mode_ := mode_t.module, pat_ := "M", library_ := "L1" } : selector).results
      [{ name := "A", module := "M", library := "L1", manual := false,
         full_name := "L1.M.A" },
       { name := "B", module := "M", library := "L2", manual := false,
         full_name := "L2.M.B" }] =
    ({ mode_ := mode_t.module, pat_ := "M", library_ := "L2" } : selector).results
      [{ name := "A", module := "M", library := "L1", manual := false,
         full_name := "L1.M.A" },
       { name := "B", module := "M", library := "L2", manual := false,
         full_name := "L2.M.B" }] :=
  (library_member_never_read { mode_ := mode_t.module, pat_ := "M", library_ := "L1" }
    { mode_ := mode_t.module, pat_ := "M", library_ := "L2" } _ rfl rfl).1

theorem library_empty_call (sel : selector) (d : suite_info)
    (h : sel.mode_ ≠ mode_t.module → sel.library_ = "") :
    (sel.call d).2.mode_ ≠ mode_t.module → (sel.call d).2.library_ = "" := by
  by_cases ha : sel.mode_ = mode_t.automatch
  · have hl : sel.library_ = "" := h (by rw [ha]; decide)
    rw [call_automatch sel d ha]
    split_ifs
    · intro _
      exact hl
    · intro hne
      exact absurd rfl hne
    · intro _
      exact hl
    · intro _
      exact hl
  · rw [call_snd_of_ne_automatch sel d ha]
    exact h

theorem library_empty_after (sel : selector) (ds : List suite_info)
    (h : sel.mode_ ≠ mode_t.module → sel.library_ = "") :
    (sel.after ds).mode_ ≠ mode_t.module → (sel.after ds).library_ = "" := by
  induction ds generalizing sel with
  | nil => exact h
  | cons d ds ih =>
    rw [after_cons]
    exact ih _ (library_empty_call sel d h)

/-- C17: for a selector made by `match_auto`, `match_all`, `match_suite` or
`match_library`, the member `library_` is empty at the start and in every state
reached by a sequence of calls whose mode is not `module`; and when a call on a
suite `d` takes such a selector from `automatch` to `module`, `library_` is the
library of `d` right after that call and after any further calls, the mode
staying `module`. -/
theorem library_member_invariant (sel : selector) (p : String)
    (hf : sel = match_auto p ∨ sel = match_all ∨ sel = match_suite p ∨
      sel = match_library p)
    (pre : List suite_info) :
    sel.library_ = "" ∧
    ((sel.after pre).mode_ ≠ mode_t.module → (sel.after pre).library_ = "") ∧
    (∀ d : suite_info, (sel.after pre).mode_ = mode_t.automatch →
      ((sel.after pre).call d).2.mode_ = mode_t.module →
      ∀ ds : List suite_info,
        (((sel.after pre).call d).2.after ds).library_ = d.library ∧
        (((sel.after pre).call d).2.after ds).mode_ = mode_t.module) := by
  have h0 : sel.library_ = "" := by
    rcases hf with e | e | e | e <;> rw [e] <;> exact ctor_library _ _
  refine ⟨h0, library_empty_after sel pre (fun _ => h0), ?_⟩
  intro d ha hmod ds
  rw [after_of_ne_automatch _ ds (by rw [hmod]; decide)]
  refine ⟨?_, hmod⟩
  rw [call_automatch _ d ha] at hmod ⊢
  by_cases k1 : d.name = (sel.after pre).pat_ ∨ d.full_name = (sel.after pre).pat_
  · rw [if_pos k1] at hmod
    cases hmod
  · rw [if_neg k1] at hmod ⊢
    by_cases k2 : (sel.after pre).pat_ = d.module
    · rw [if_pos k2]
    · rw [if_neg k2] at hmod
      by_cases k3 : (sel.after pre).pat_ = d.library
      · rw [if_pos k3] at hmod
        cases hmod
      · rw [if_neg k3] at hmod
        exact absurd (ha.symm.trans hmod) (by decide)

/-- C17, at a concrete input: after a suite that hits nothing, `match_auto "M"` still
has an empty `library_`; the next suite, of module `M` and library `L`, moves it to
`module`, and `library_` is `L` then and after one more call. -/
theorem library_member_invariant_witness :
    ((match_auto "M").after
      [{ name := "Z", module := "N", library := "K", manual := false,
         full_name := "K.N.Z" }]).library_ = "" ∧
    ((((match_auto "M").after
      [{ name := "Z", module := "N", library := "K", manual := false,
         full_name := "K.N.Z" }]).call
      { name := "A", module := "M", library := "L", manual := false,
        full_name := "L.M.A" }).2.after
      [{ name := "B", module := "M", library := "L2", manual := false,
         full_name := "L2.M.B" }]).library_ = "L" :=
  ⟨(library_member_invariant (match_auto "M") "M" (Or.inl rfl)
      [{ name := "Z", module := "N", library := "K", manual := false,
         full_name := "K.N.Z" }]).2.1 (by decide),
   ((library_member_invariant (match_auto "M") "M" (Or.inl rfl)
      [{ name := "Z", module := "N", library := "K", manual := false,
         full_name := "K.N.Z" }]).2.2
      { name := "A", module := "M", library := "L", manual := false,
        full_name := "L.M.A" } (by decide) (by decide)
      [{ name := "B", module := "M", library := "L2", manual := false,
         full_name := "L2.M.B" }]).1⟩

/-! ## Whole scans with `match_auto` -/

theorem call_no_hit (sel : selector) (e : suite_info) (h : sel.mode_ = mode_t.automatch)
    (hn : e.name ≠ sel.pat_ ∧ e.full_name ≠ sel.pat_ ∧ e.module ≠ sel.pat_ ∧
      e.library ≠ sel.pat_) :
    sel.call e = (false, sel) := by
  rw [call_automatch sel e h, if_neg, if_neg (fun k => hn.2.2.1 k.symm),
    if_neg (fun k => hn.2.2.2 k.symm)]
  rintro (k | k)
  · exact hn.1 k
  · exact hn.2.1 k

theorem call_stays_automatch (sel : selector) (e : suite_info)
    (h : sel.mode_ = mode_t.automatch) (h2 : (sel.call e).2.mode_ = mode_t.automatch) :
    sel.call e = (false, sel) := by
  rw [call_automatch sel e h] at h2 ⊢
  by_cases k1 : e.name = sel.pat_ ∨ e.full_name = sel.pat_
  · rw [if_pos k1] at h2
    cases h2
  · rw [if_neg k1] at h2 ⊢
    by_cases k2 : sel.pat_ = e.module
    · rw [if_pos k2] at h2
      cases h2
    · rw [if_neg k2] at h2 ⊢
      by_cases k3 : sel.pat_ = e.library
      · rw [if_pos k3] at h2
        cases h2
      · rw [if_neg k3]

theorem skip_no_hits (sel : selector) (pre rest : List suite_info)
    (h : sel.mode_ = mode_t.automatch)
    (hn : ∀ e ∈ pre, e.name ≠ sel.pat_ ∧ e.full_name ≠ sel.pat_ ∧ e.module ≠ sel.pat_ ∧
      e.library ≠ sel.pat_) :
    sel.after pre = sel ∧ sel.selected (pre ++ rest) = sel.selected rest := by
  induction pre with
  | nil => exact ⟨rfl, rfl⟩
  | cons e es ih =>
    have hc := call_no_hit sel e h (hn e (List.mem_cons_self e es))
    have ih2 := ih (fun x hx => hn x (List.mem_cons_of_mem e hx))
    refine ⟨?_, ?_⟩
    · rw [after_cons, hc]
      exact ih2.1
    · rw [List.cons_append, selected_cons, hc]
      simp only [Bool.false_eq_true, if_false]
      exact ih2.2

theorem skip_while_automatch (sel : selector) (pre rest : List suite_info)
    (h : sel.mode_ = mode_t.automatch) (h2 : (sel.after pre).mode_ = mode_t.automatch) :
    sel.after pre = sel ∧ sel.selected (pre ++ rest) = sel.selected rest := by
  induction pre with
  | nil => exact ⟨rfl, rfl⟩
  | cons e es ih =>
    have hm : (sel.call e).2.mode_ = mode_t.automatch := by
      by_contra hne
      rw [after_cons, after_of_ne_automatch _ es hne] at h2
      exact hne h2
    have hc := call_stays_automatch sel e h hm
    rw [after_cons, hc] at h2
    have ih2 := ih h2
    refine ⟨?_, ?_⟩
    · rw [after_cons, hc]
      exact ih2.1
    · rw [List.cons_append, selected_cons, hc]
      simp only [Bool.false_eq_true, if_false]
      exact ih2.2

theorem selected_name_hit (sel : selector) (d : suite_info) (post : List suite_info)
    (h : sel.mode_ = mode_t.automatch) (hd : d.name = sel.pat_ ∨ d.full_name = sel.pat_) :
    sel.selected (d :: post) = [d] := by
  rw [selected_cons, call_automatch sel d h, if_pos hd]
  simp only [if_true]
  rw [selected_none _ post rfl]

/-- C18: for a non-empty pattern `p` and a catalog `pre ++ d :: post` in which the
name or full name of `d` is `p`: if no suite of `pre` has its name, full name,
module or library equal to `p`, the scan with `match_auto p` selects exactly `d`;
and the same holds if the selector is still in mode `automatch` when it reaches
`d`. The manual flag of `d` plays no part. -/
theorem automatch_name_first_selects_one (p : String) (pre post : List suite_info)
    (d : suite_info) (hp : p ≠ "") (hd : d.name = p ∨ d.full_name = p) :
    ((∀ e ∈ pre, e.name ≠ p ∧ e.full_name ≠ p ∧ e.module ≠ p ∧ e.library ≠ p) →
      (match_auto p).selected (pre ++ d :: post) = [d]) ∧
    (((match_auto p).after pre).mode_ = mode_t.automatch →
      (match_auto p).selected (pre ++ d :: post) = [d]) := by
  have h0 := match_auto_of_ne_empty p hp
  have hmode : (match_auto p).mode_ = mode_t.automatch := by rw [h0]
  have hpat : (match_auto p).pat_ = p := by rw [h0]
  have hd2 : d.name = (match_auto p).pat_ ∨ d.full_name = (match_auto p).pat_ := by
    rw [hpat]
    exact hd
  refine ⟨?_, ?_⟩
  · intro hn
    rw [(skip_no_hits (match_auto p) pre (d :: post) hmode (by rw [hpat]; exact hn)).2]
    exact selected_name_hit _ d post hmode hd2
  · intro ha
    rw [(skip_while_automatch (match_auto p) pre (d :: post) hmode ha).2]
    exact selected_name_hit _ d post hmode hd2

/-- C18, at a concrete input: with pattern `X`, after a suite that hits nothing the
manual suite named `X` is the only one selected, although a non-manual suite of
module `X` follows it. -/
theorem automatch_name_first_selects_one_witness :
    (match_auto "X").selected
      ([{ name := "A", module := "m", library := "l", manual := false,
          full_name := "l.m.A" }] ++
        { name := "X", module := "m", library := "l", manual := true,
          full_name := "l.m.X" } ::
        [{ name := "B", module := "X", library := "l", manual := false,
           full_name := "l.X.B" }]) =
      [{ name := "X", module := "m", library := "l", manual := true,
         full_name := "l.m.X" }] :=
  (automatch_name_first_selects_one "X"
    [{ name := "A", module := "m", library := "l", manual := false,
       full_name := "l.m.A" }]
    [{ name := "B", module := "X", library := "l", manual := false,
       full_name := "l.X.B" }]
    { name := "X", module := "m", library := "l", manual := true,
      full_name := "l.m.X" } (by decide) (Or.inl rfl)).1 (by decide)

theorem selected_eq_reference (sel : selector) (ds : List suite_info)
    (h : sel.mode_ = mode_t.automatch) :
    sel.selected ds = reference_selected sel.pat_ ds := by
  induction ds with
  | nil => rfl
  | cons d ds ih =>
    rw [selected_cons, call_automatch sel d h]
    unfold reference_selected
    by_cases k1 : d.name = sel.pat_ ∨ d.full_name = sel.pat_
    · have k0 : d.name = sel.pat_ ∨ d.full_name = sel.pat_ ∨ d.module = sel.pat_ ∨
          d.library = sel.pat_ := by
        rcases k1 with e | e
        · exact Or.inl e
        · exact Or.inr (Or.inl e)
      rw [if_pos k1, if_pos k0, if_pos k1]
      simp only [if_true]
      rw [selected_none _ ds rfl]
    · rw [if_neg k1]
      by_cases k2 : sel.pat_ = d.module
      · have k2' : d.module = sel.pat_ := k2.symm
        have k0 : d.name = sel.pat_ ∨ d.full_name = sel.pat_ ∨ d.module = sel.pat_ ∨
            d.library = sel.pat_ := Or.inr (Or.inr (Or.inl k2'))
        rw [if_pos k2, if_pos k0, if_neg k1, if_pos k2', selected_module _ ds rfl]
        cases hm : d.manual <;> simp
      · have k2' : ¬ d.module = sel.pat_ := fun e => k2 e.symm
        rw [if_neg k2]
        by_cases k3 : sel.pat_ = d.library
        · have k3' : d.library = sel.pat_ := k3.symm
          have k0 : d.name = sel.pat_ ∨ d.full_name = sel.pat_ ∨ d.module = sel.pat_ ∨
              d.library = sel.pat_ := Or.inr (Or.inr (Or.inr k3'))
          rw [if_pos k3, if_pos k0, if_neg k1, if_neg k2', selected_library _ ds rfl]
          cases hm : d.manual <;> simp
        · have k3' : ¬ d.library = sel.pat_ := fun e => k3 e.symm
          have k0 : ¬ (d.name = sel.pat_ ∨ d.full_name = sel.pat_ ∨ d.module = sel.pat_ ∨
              d.library = sel.pat_) := by
            rintro (e | e | e | e)
            · exact k1 (Or.inl e)
            · exact k1 (Or.inr e)
            · exact k2' e
            · exact k3' e
          rw [if_neg k3, if_neg k0]
          simp only [Bool.false_eq_true, if_false]
          exact ih

/-- C19: for a non-empty pattern `p` and every catalog, the list selected by a scan
with `match_auto p` is the list the stateless reference `reference_selected p`
gives; and a manual suite that hits on module or library, without a name hit,
gets false and still takes the selector out of `automatch`. -/
theorem match_auto_refines_reference (p : String) (ds : List suite_info) (hp : p ≠ "") :
    (match_auto p).selected ds = reference_selected p ds ∧
    (∀ d : suite_info, d.manual = true → ¬ (d.name = p ∨ d.full_name = p) →
      (d.module = p ∨ d.library = p) →
      ((match_auto p).call d).1 = false ∧
      ((match_auto p).call d).2.mode_ ≠ mode_t.automatch) := by
  have h0 := match_auto_of_ne_empty p hp
  have hmode : (match_auto p).mode_ = mode_t.automatch := by rw [h0]
  have hpat : (match_auto p).pat_ = p := by rw [h0]
  refine ⟨?_, ?_⟩
  · have := selected_eq_reference (match_auto p) ds hmode
    rwa [hpat] at this
  · intro d hman k1 k23
    rw [call_automatch _ d hmode, hpat, if_neg k1]
    by_cases k2 : p = d.module
    · rw [if_pos k2, hman]
      exact ⟨rfl, fun e => mode_t.noConfusion e⟩
    · have k3 : p = d.library := by
        rcases k23 with e | e
        · exact absurd e.symm k2
        · exact e.symm
      rw [if_neg k2, if_pos k3, hman]
      exact ⟨rfl, fun e => mode_t.noConfusion e⟩

/-- C19, at a concrete input: with pattern `M`, a manual suite of module `M` is not
selected but fixes the mode, so the later suite named `M` is not selected and
the later non-manual suite of module `M` is. -/
theorem match_auto_refines_reference_witness :
    (match_auto "M").selected
      [{ name := "A", module := "M", library := "L", manual := true,
         full_name := "L.M.A" },
       { name := "M", module := "N", library := "L", manual := false,
         full_name := "L.N.M" },
       { name := "B", module := "M", library := "L", manual := false,
         full_name := "L.M.B" }] =
    reference_selected "M"
      [{ name := "A", module := "M", library := "L", manual := true,
         full_name := "L.M.A" },
       { name := "M", module := "N", library := "L", manual := false,
         full_name := "L.N.M" },
       { name := "B", module := "M", library := "L", manual := false,
         full_name := "L.M.B" }] ∧
    reference_selected "M"
      [{ name := "A", module := "M", library := "L", manual := true,
         full_name := "L.M.A" },
       { name := "M", module := "N", library := "L", manual := false,
         full_name := "L.N.M" },
       { name := "B", module := "M", library := "L", manual := false,
         full_name := "L.M.B" }] =
      [{ name := "B", module := "M", library := "L", manual := false,
         full_name := "L.M.B" }] :=
  ⟨(match_auto_refines_reference "M" _ (by decide)).1, by decide⟩

theorem selected_sweep_non_manual (sel : selector) (ds : List suite_info)
    (ha : sel.mode_ ≠ mode_t.automatch) (hs : sel.mode_ ≠ mode_t.suite) :
    ∀ x ∈ sel.selected ds, x.manual = false := by
  intro x hx
  rw [selected_of_ne_automatch sel ds ha] at hx
  have hc : (sel.call x).1 = true := (List.mem_filter.mp hx).2
  cases hmode : sel.mode_ with
  | automatch => exact absurd hmode ha
  | suite => exact absurd hmode hs
  | module =>
    rw [call_module sel x hmode] at hc
    simp only [Bool.and_eq_true, Bool.not_eq_true'] at hc
    exact hc.2
  | library =>
    rw [call_library sel x hmode] at hc
    simp only [Bool.and_eq_true, Bool.not_eq_true'] at hc
    exact hc.2
  | none =>
    rw [call_none sel x hmode] at hc
    cases hc
  | all =>
    rw [call_all sel x hmode] at hc
    simpa using hc

theorem selected_shape (sel : selector) (ds : List suite_info)
    (hs : sel.mode_ ≠ mode_t.suite) :
    (∀ x ∈ sel.selected ds, x.manual = false) ∨ ∃ d, sel.selected ds = [d] := by
  by_cases ha : sel.mode_ = mode_t.automatch
  · induction ds with
    | nil =>
      left
      intro x hx
      simp [selector.selected] at hx
    | cons d ds ih =>
      rw [selected_cons, call_automatch sel d ha]
      by_cases k1 : d.name = sel.pat_ ∨ d.full_name = sel.pat_
      · right
        refine ⟨d, ?_⟩
        rw [if_pos k1]
        simp only [if_true]
        rw [selected_none _ ds rfl]
      · rw [if_neg k1]
        by_cases k2 : sel.pat_ = d.module
        · left
          rw [if_pos k2]
          have hrest := selected_sweep_non_manual
            { sel with mode_ := mode_t.module, library_ := d.library } ds
            (fun e => mode_t.noConfusion e) (fun e => mode_t.noConfusion e)
          intro x hx
          cases hm : d.manual with
          | true =>
            rw [hm] at hx
            exact hrest x (by simpa using hx)
          | false =>
            rw [hm] at hx
            have hx2 : x ∈ d :: selector.selected
                { sel with mode_ := mode_t.module, library_ := d.library } ds := by
              simpa using hx
            rcases List.mem_cons.mp hx2 with e | e
            · rw [e]
              exact hm
            · exact hrest x e
        · rw [if_neg k2]
          by_cases k3 : sel.pat_ = d.library
          · left
            rw [if_pos k3]
            have hrest := selected_sweep_non_manual
              { sel with mode_ := mode_t.library } ds
              (fun e => mode_t.noConfusion e) (fun e => mode_t.noConfusion e)
            intro x hx
            cases hm : d.manual with
            | true =>
              rw [hm] at hx
              exact hrest x (by simpa using hx)
            | false =>
              rw [hm] at hx
              have hx2 : x ∈ d :: selector.selected
                  { sel with mode_ := mode_t.library } ds := by
                simpa using hx
              rcases List.mem_cons.mp hx2 with e | e
              · rw [e]
                exact hm
              · exact hrest x e
          · rw [if_neg k3]
            simp only [Bool.false_eq_true, if_false]
            exact ih
  · exact Or.inl (selected_sweep_non_manual sel ds ha hs)

theorem match_auto_mode_ne_suite (p : String) : (match_auto p).mode_ ≠ mode_t.suite := by
  by_cases hp : p = ""
  · rw [hp]
    decide
  · rw [match_auto_of_ne_empty p hp]
    exact fun e => mode_t.noConfusion e

/-- C20: for every pattern `p` and every catalog, the list selected by a scan with
`match_auto p` holds at most one manual suite, and when a manual suite stands in
it nothing stands after it (nor before it). -/
theorem match_auto_selects_at_most_one_manual (p : String) (ds : List suite_info) :
    (((match_auto p).selected ds).filter (fun d => d.manual)).length ≤ 1 ∧
    (∀ (pre post : List suite_info) (d : suite_info),
      (match_auto p).selected ds = pre ++ d :: post → d.manual = true →
      post = [] ∧ pre = []) := by
  rcases selected_shape (match_auto p) ds (match_auto_mode_ne_suite p) with h | ⟨d0, h⟩
  · refine ⟨?_, ?_⟩
    · have : ((match_auto p).selected ds).filter (fun d => d.manual) = [] := by
        rw [List.filter_eq_nil_iff]
        intro x hx
        simp [h x hx]
      rw [this]
      exact Nat.zero_le 1
    · intro pre post d he hm
      have hd : d ∈ (match_auto p).selected ds := by
        rw [he]
        exact List.mem_append_right pre (List.mem_cons_self d post)
      rw [h d hd] at hm
      cases hm
  · rw [h]
    refine ⟨?_, ?_⟩
    · exact le_trans (List.length_filter_le _ _) (by simp)
    · intro pre post d he _
      cases pre with
      | nil =>
        simp only [List.nil_append, List.cons.injEq] at he
        exact ⟨he.2.symm, rfl⟩
      | cons a as =>
        simp at he

/-- C20, at a concrete input: with pattern `X`, the scan selects the manual suite
named `X` and nothing else, although a second manual suite named `X` and a
non-manual suite of module `X` follow. -/
theorem match_auto_selects_at_most_one_manual_witness :
    (match_auto "X").selected
      [{ name := "X", module := "m", library := "l", manual := true,
         full_name := "l.m.X" },
       { name := "X", module := "n", library := "l", manual := true,
         full_name := "l.n.X" },
       { name := "B", module := "X", library := "l", manual := false,
         full_name := "l.X.B" }] =
      [{ name := "X", module := "m", library := "l", manual := true,
         full_name := "l.m.X" }] ∧
    (((match_auto "X").selected
      [{ name := "X", module := "m", library := "l", manual := true,
         full_name := "l.m.X" },
       { name := "X", module := "n", library := "l", manual := true,
         full_name := "l.n.X" },
       { name := "B", module := "X", library := "l", manual := false,
         full_name := "l.X.B" }]).filter (fun d => d.manual)).length ≤ 1 :=
  ⟨by decide, (match_auto_selects_at_most_one_manual "X" _).1⟩

end beast.unit_test
